import Mathlib

/-!
Verification development for the ChatGPT API cost calculator (`src/main.py`).

The Python program is embedded shallowly:

* the `tiktoken` library is abstracted as an environment mapping a model id to
  an optional string tokenizer (`none` models `encoding_for_model` raising);
* a content part (`content.parts` entry) is either a plain string or a dict of
  numeric fields (width/height for image descriptors);
* Python exceptions are modelled with `Except` / an explicit error component
  (`PyErr`), so that `try/except AttributeError` becomes a filter on the error;
* `datetime` values are a record of year/month/day plus a time-of-day, with the
  constructor invariants (month in 1..12, day in 1..days-in-month) carried as
  proof fields, exactly as Python's `datetime` enforces them;
* floats (`COST_INPUT_TOKEN = 5.0`, `COST_OUTPUT_TOKEN = 15.0`) are modelled as
  exact rationals.
-/

namespace CostCalc

/-- Python exception kinds arising in the embedded code paths. -/
inductive PyErr where
  | attributeError
  | indexError
  | valueError
  deriving DecidableEq, Repr

/-- A content unit of `content.parts`: either a plain string, or a dict
(modelled as an association list of numeric fields such as width/height). -/
inductive Part where
  | str (s : String)
  | dict (fields : List (String × Nat))
  deriving DecidableEq, Repr

/-- Source: `COST_INPUT_TOKEN = 5.0` (dollars per million tokens); the float is
modelled as an exact rational. -/
def COST_INPUT_TOKEN : ℚ := 5

/-- Source: `COST_OUTPUT_TOKEN = 15.0` (dollars per million tokens). -/
def COST_OUTPUT_TOKEN : ℚ := 15

/-- Source: `COST_BASE_IMAGE = 85` (tokens for each image). -/
def COST_BASE_IMAGE : Nat := 85

/-- Source: `COST_IMAGE_TILE = 170` (tokens for each 512x512 tile). -/
def COST_IMAGE_TILE : Nat := 170

/-- Source: `MODEL = "gpt-4o"`. -/
def MODEL : String := "gpt-4o"

/-- Abstract model of the external `tiktoken` library: `encoding_for_model`
returns a total token counter on strings when the model id is registered, and
`none` when the lookup raises (unknown model). `encoding.encode` applied to a
non-string (a dict part) always raises, which the embedding represents by
never consulting the encoder for `Part.dict`. -/
structure TikTokenEnv where
  encoding_for_model : String → Option (String → Nat)

/-- Result of a `count_tokens` call that returned normally: the token count,
and whether the `print(f"Error tokenizing text: ...")` branch was taken. -/
structure CountResult where
  tokens : Nat
  reported : Bool
  deriving DecidableEq, Repr

/-- Embedding of `count_tokens` (src/main.py lines 17-36).

```
try:
    encoding = tiktoken.encoding_for_model(model)
    return len(encoding.encode(text))
except Exception as e:
    if 'width' in text.keys() and 'height' in text.keys():
        return COST_BASE_IMAGE + COST_IMAGE_TILE * (text['width'] * text['height'] // (512 * 512))
    else:
        print(f"Error tokenizing text: {e}")
        return 0
```

For a string part, tokenization succeeds iff the model is registered; when it
is not, the handler evaluates `text.keys()` on a `str`, which itself raises
`AttributeError`. For a dict part the `encode` call always raises, so the
handler runs: with both width and height present it applies the image formula
(`//` is Nat floor division), otherwise it prints and returns 0. -/
def count_tokens (env : TikTokenEnv) (text : Part) (model : String) :
    Except PyErr CountResult :=
  match text with
  | .str s =>
    match env.encoding_for_model model with
    | some enc => .ok ⟨enc s, false⟩
    | none => .error .attributeError
  | .dict fields =>
    match fields.lookup "width", fields.lookup "height" with
    | some w, some h =>
      .ok ⟨COST_BASE_IMAGE + COST_IMAGE_TILE * (w * h / (512 * 512)), false⟩
    | _, _ => .ok ⟨0, true⟩

/-- The `message` payload of a node, after the `.get` chains of lines 54-56:
`content_parts = none` models a missing `content`/`parts` key (defaulted to
`['']`), `author_role` is the result of `.get('role', '')`, and `create_time`
is `.get('create_time')` (`none` = key absent or null). -/
structure Message where
  content_parts : Option (List Part)
  author_role : String
  create_time : Option Int
  deriving DecidableEq, Repr

/-- A node of `conversation['mapping']`. `noMessage` is a node without a
`message` key (every `.get` chain then yields its default). `nullMessage`
covers `message: null` — and equally a null `content` or `author` — where one
of the `.get` chains raises `AttributeError` before any accumulation, which
line 65-66 catches and ignores. -/
inductive MessageNode where
  | noMessage
  | nullMessage
  | msg (m : Message)
  deriving DecidableEq, Repr

/-- A conversation record: its `mapping` items in iteration order. -/
structure Conversation where
  mapping : List (String × MessageNode)
  deriving DecidableEq, Repr

/-- Mutable state of `extract_token_usage`: the two defaultdicts (as
association lists in first-touch order) plus, as a ghost field, the list of
parts passed to `count_tokens` (one entry per invocation). -/
structure ExtractState where
  monthly_input_tokens : List (String × Nat)
  monthly_output_tokens : List (String × Nat)
  tokenized : List Part
  deriving DecidableEq, Repr

/-- Behaviour of `defaultdict(int)` under `d[k] += v`. -/
def addTo : List (String × Nat) → String → Nat → List (String × Nat)
  | [], k, v => [(k, v)]
  | (k', v') :: rest, k, v =>
    if k' = k then (k', v' + v) :: rest else (k', v') :: addTo rest k v

/-- Python truthiness of a content part: a string is truthy iff nonempty, a
dict iff it has at least one field. -/
def partTruthy : Part → Bool
  | .str s => !(s == "")
  | .dict fields => !fields.isEmpty

/-- Python truthiness of `create_time` (`if create_time and ...`): falsy when
absent/null or when the numeric value is exactly 0. -/
def ctimeTruthy : Option Int → Bool
  | none => false
  | some t => decide (t ≠ 0)

/-- The inner loop of lines 59-64: for each part, call `count_tokens` (default
model), then add the count to the mapping selected by `author_role`. A raised
exception aborts the loop, keeping the updates already made. -/
def partsLoop (env : TikTokenEnv) (month_key author_role : String) :
    List Part → ExtractState → ExtractState × Option PyErr
  | [], st => (st, none)
  | part :: rest, st =>
    let st1 : ExtractState := { st with tokenized := st.tokenized ++ [part] }
    match count_tokens env part MODEL with
    | .error e => (st1, some e)
    | .ok r =>
      let st2 : ExtractState :=
        if author_role = "user" then
          { st1 with monthly_input_tokens := addTo st1.monthly_input_tokens month_key r.tokens }
        else if author_role = "assistant" then
          { st1 with monthly_output_tokens := addTo st1.monthly_output_tokens month_key r.tokens }
        else st1
      partsLoop env month_key author_role rest st2

/-- Body of the per-node `try:` block (lines 53-64). `fromtimestampMonth`
abstracts `datetime.fromtimestamp(create_time).strftime('%Y-%m')`, whose value
depends on the local timezone. Note the gate `if create_time and
message_content[0]:` — `create_time` is tested first (short-circuit), and
indexing an empty `parts` list raises `IndexError`. -/
def nodeBody (env : TikTokenEnv) (fromtimestampMonth : Int → String)
    (node : MessageNode) (st : ExtractState) : ExtractState × Option PyErr :=
  match node with
  | .nullMessage => (st, some .attributeError)
  | .noMessage => (st, none)
  | .msg m =>
    let message_content := m.content_parts.getD [Part.str ""]
    if ctimeTruthy m.create_time then
      match message_content with
      | [] => (st, some .indexError)
      | p :: _ =>
        if partTruthy p then
          partsLoop env (fromtimestampMonth (m.create_time.getD 0))
            m.author_role message_content st
        else (st, none)
    else (st, none)

/-- One node of the extraction loop, with the `except AttributeError: pass`
handler applied: an `AttributeError` is swallowed (keeping the state reached so
far), any other exception propagates. -/
def processNode (env : TikTokenEnv) (fromtimestampMonth : Int → String)
    (node : MessageNode) (st : ExtractState) : ExtractState × Option PyErr :=
  match nodeBody env fromtimestampMonth node st with
  | (st', some .attributeError) => (st', none)
  | r => r

/-- Iteration over `conversation['mapping'].items()`; an uncaught exception
aborts the whole extraction. -/
def runNodes (env : TikTokenEnv) (fromtimestampMonth : Int → String) :
    List (String × MessageNode) → ExtractState → Except PyErr ExtractState
  | [], st => .ok st
  | (_, node) :: rest, st =>
    match processNode env fromtimestampMonth node st with
    | (st', none) => runNodes env fromtimestampMonth rest st'
    | (_, some e) => .error e

/-- Iteration over the conversations of the export. -/
def runConvs (env : TikTokenEnv) (fromtimestampMonth : Int → String) :
    List Conversation → ExtractState → Except PyErr ExtractState
  | [], st => .ok st
  | c :: rest, st =>
    match runNodes env fromtimestampMonth c.mapping st with
    | .ok st' => runConvs env fromtimestampMonth rest st'
    | .error e => .error e

/-- Embedding of `extract_token_usage` (src/main.py lines 46-67): returns the
two monthly mappings, or the Python exception that aborted the pass. -/
def extract_token_usage (env : TikTokenEnv) (fromtimestampMonth : Int → String)
    (data : List Conversation) :
    Except PyErr (List (String × Nat) × List (String × Nat)) :=
  match runConvs env fromtimestampMonth data ⟨[], [], []⟩ with
  | .ok st => .ok (st.monthly_input_tokens, st.monthly_output_tokens)
  | .error e => .error e

/-- Calendar helper mirroring Python's leap-year rule (used by
`dateutil.relativedelta` when clamping the day of month). -/
def isLeapYear (y : Nat) : Bool :=
  (y % 4 == 0 && y % 100 != 0) || (y % 400 == 0)

/-- Number of days in a calendar month. -/
def daysInMonth (y m : Nat) : Nat :=
  if m = 2 then (if isLeapYear y then 29 else 28)
  else if m = 4 ∨ m = 6 ∨ m = 9 ∨ m = 11 then 30
  else 31

theorem daysInMonth_pos (y m : Nat) : 1 ≤ daysInMonth y m := by
  unfold daysInMonth
  split
  · split <;> omega
  · split <;> omega

/-- Embedding of a `datetime.datetime` value: year, month, day, plus a single
time-of-day component standing for hour/minute/second/microsecond under the
lexicographic order. The constructor invariants of `datetime` (month in 1..12,
day in 1..days-in-month) are carried as proof fields, since Python cannot
represent an out-of-range date. -/
structure PyDateTime where
  year : Nat
  month : Nat
  day : Nat
  tod : Nat
  month_pos : 1 ≤ month
  month_le : month ≤ 12
  day_pos : 1 ≤ day
  day_le : day ≤ daysInMonth year month

/-- Absolute month index (year*12 + month); two dates are in the same calendar
month iff their indices agree. -/
def monthIdx (d : PyDateTime) : Nat := d.year * 12 + d.month

/-- Embedding of `current_date + relativedelta(months=1)`: step to the next
calendar month (with year rollover), clamping the day to the length of the
target month, keeping the time of day. -/
def addMonth (d : PyDateTime) : PyDateTime :=
  if h : d.month = 12 then
    { year := d.year + 1, month := 1, day := min d.day (daysInMonth (d.year + 1) 1),
      tod := d.tod, month_pos := le_refl 1, month_le := by omega,
      day_pos := le_min d.day_pos (daysInMonth_pos _ _),
      day_le := min_le_right _ _ }
  else
    { year := d.year, month := d.month + 1, day := min d.day (daysInMonth d.year (d.month + 1)),
      tod := d.tod, month_pos := by omega,
      month_le := by have := d.month_le; omega,
      day_pos := le_min d.day_pos (daysInMonth_pos _ _),
      day_le := min_le_right _ _ }

/-- The comparison `current_date <= end_date` on `datetime` values:
lexicographic on (year, month, day, time of day). -/
def dateLe (a b : PyDateTime) : Prop :=
  a.year < b.year ∨ (a.year = b.year ∧ (a.month < b.month ∨ (a.month = b.month ∧
    (a.day < b.day ∨ (a.day = b.day ∧ a.tod ≤ b.tod)))))

instance (a b : PyDateTime) : Decidable (dateLe a b) := by
  unfold dateLe; infer_instance

theorem dateLe_refl (a : PyDateTime) : dateLe a a := by
  unfold dateLe; omega

theorem dateLe_trans {a b c : PyDateTime} (h1 : dateLe a b) (h2 : dateLe b c) :
    dateLe a c := by
  unfold dateLe at h1 h2 ⊢; omega

theorem dateLe_total (a b : PyDateTime) : dateLe a b ∨ dateLe b a := by
  unfold dateLe; omega

theorem dateLe_monthIdx {a b : PyDateTime} (h : dateLe a b) :
    monthIdx a ≤ monthIdx b := by
  have ha1 := a.month_pos; have ha2 := a.month_le
  have hb1 := b.month_pos; have hb2 := b.month_le
  unfold dateLe at h; unfold monthIdx; omega

theorem monthIdx_le_dateLe {a b : PyDateTime} (hd : a.day = 1) (ht : a.tod = 0)
    (h : monthIdx a ≤ monthIdx b) : dateLe a b := by
  have ha1 := a.month_pos; have ha2 := a.month_le
  have hb1 := b.month_pos; have hb2 := b.month_le
  have hbd := b.day_pos
  unfold monthIdx at h; unfold dateLe; omega

theorem monthIdx_addMonth (d : PyDateTime) : monthIdx (addMonth d) = monthIdx d + 1 := by
  have h1 := d.month_pos; have h2 := d.month_le
  unfold addMonth monthIdx
  split <;> dsimp only <;> omega

theorem addMonth_day (d : PyDateTime) (hd : d.day = 1) : (addMonth d).day = 1 := by
  unfold addMonth
  split <;> dsimp only <;> rw [hd] <;>
    exact Nat.min_eq_left (daysInMonth_pos _ _)

theorem addMonth_tod (d : PyDateTime) : (addMonth d).tod = d.tod := by
  unfold addMonth
  split <;> dsimp only

/-- Zero-padded decimal rendering, as used by `strftime` fields. -/
def padZeros (width n : Nat) : String :=
  let s := toString n
  String.mk (List.replicate (width - s.length) '0') ++ s

/-- Embedding of `strftime('%Y-%m')`: the month key of a date. -/
def monthKeyStr (d : PyDateTime) : String :=
  padZeros 4 d.year ++ "-" ++ padZeros 2 d.month

/-- Split a character list at every occurrence of the separator character
(the structural core of `str.split('-')`). -/
def splitOnChar (c : Char) : List Char → List (List Char)
  | [] => [[]]
  | x :: xs =>
    let r := splitOnChar c xs
    if x = c then [] :: r
    else
      match r with
      | g :: gs => (x :: g) :: gs
      | [] => [[x]]

/-- Parse a nonempty all-digit character list as a decimal number. -/
def digitsToNatAux : List Char → Nat → Option Nat
  | [], acc => some acc
  | ch :: cs, acc =>
    if '0' ≤ ch ∧ ch ≤ '9' then
      digitsToNatAux cs (acc * 10 + (ch.toNat - '0'.toNat))
    else none

/-- Parse a nonempty all-digit character list as a decimal number; `none` on
an empty or non-numeric field. -/
def digitsToNat? : List Char → Option Nat
  | [] => none
  | cs => digitsToNatAux cs 0

/-- Embedding of `datetime.strptime(s, '%Y-%m')`: parse a month key into the
first instant of that month; `none` models the `ValueError` raised on a
malformed key (wrong shape, non-numeric fields, or a month outside 1..12). -/
def strptimeYm (s : String) : Option PyDateTime :=
  match splitOnChar '-' s.toList with
  | [ys, ms] =>
    match digitsToNat? ys, digitsToNat? ms with
    | some y, some m =>
      if h : 1 ≤ m ∧ m ≤ 12 then
        some ⟨y, m, 1, 0, h.1, h.2, le_refl 1, daysInMonth_pos y m⟩
      else none
    | _, _ => none
  | _ => none

/-- The loop body of `get_all_months`, iterated with an explicit bound. The
bound `monthIdx end + 1 - monthIdx start` is exactly the number of iterations
the Python `while current_date <= end_date` loop performs (each step increases
`monthIdx` by one, and the guard forces `monthIdx current <= monthIdx end`),
as certified by `get_all_months_eq_step` below. -/
def gamLoop (fuel : Nat) (current_date end_date : PyDateTime) : List String :=
  match fuel with
  | 0 => []
  | fuel + 1 =>
    if dateLe current_date end_date then
      monthKeyStr current_date :: gamLoop fuel (addMonth current_date) end_date
    else []

/-- Embedding of `get_all_months` (src/main.py lines 70-77). -/
def get_all_months (start_date end_date : PyDateTime) : List String :=
  gamLoop (monthIdx end_date + 1 - monthIdx start_date) start_date end_date

/-- The defining loop equation of `get_all_months`: the model satisfies
exactly the recurrence of the Python `while` loop. -/
theorem get_all_months_eq_step (s e : PyDateTime) :
    get_all_months s e =
      if dateLe s e then monthKeyStr s :: get_all_months (addMonth s) e else [] := by
  unfold get_all_months
  by_cases h : dateLe s e
  · have h1 : monthIdx s ≤ monthIdx e := dateLe_monthIdx h
    have h2 : monthIdx e + 1 - monthIdx s = (monthIdx e + 1 - monthIdx (addMonth s)) + 1 := by
      rw [monthIdx_addMonth]; omega
    rw [h2]
    simp only [gamLoop, if_pos h]
  · cases hfuel : monthIdx e + 1 - monthIdx s with
    | zero => simp [gamLoop, if_neg h]
    | succ n => simp [gamLoop, if_neg h]

/-- The first instant (day 1, midnight) of the calendar month with absolute
index `n` (for `n` the index of a real month, i.e. `n ≥ 1`). -/
def ofMonthIdx (n : Nat) : PyDateTime :=
  ⟨(n - 1) / 12, (n - 1) % 12 + 1, 1, 0, by omega, by omega, le_refl 1,
    daysInMonth_pos _ _⟩

/-- The ordered, gapless list of month keys for the months with absolute
indices `a..b` (both inclusive). -/
def monthRangeList (a b : Nat) : List String :=
  (List.range (b + 1 - a)).map (fun i => monthKeyStr (ofMonthIdx (a + i)))

theorem monthKeyStr_ofMonthIdx (d : PyDateTime) :
    monthKeyStr (ofMonthIdx (monthIdx d)) = monthKeyStr d := by
  have h1 := d.month_pos; have h2 := d.month_le
  unfold monthKeyStr ofMonthIdx monthIdx
  dsimp only
  have hy : (d.year * 12 + d.month - 1) / 12 = d.year := by omega
  have hm : (d.year * 12 + d.month - 1) % 12 + 1 = d.month := by omega
  rw [hy, hm]

theorem monthRangeList_cons {a b : Nat} (h : a ≤ b) :
    monthRangeList a b = monthKeyStr (ofMonthIdx a) :: monthRangeList (a + 1) b := by
  unfold monthRangeList
  have h1 : b + 1 - a = (b - a) + 1 := by omega
  have h2 : b + 1 - (a + 1) = b - a := by omega
  rw [h1, h2, List.range_succ_eq_map, List.map_cons, List.map_map]
  refine congrArg₂ _ (by rw [Nat.add_zero]) ?_
  refine List.map_congr_left ?_
  intro i _
  simp only [Function.comp_apply]
  have : a + (i + 1) = a + 1 + i := by omega
  rw [Nat.succ_eq_add_one, this]

theorem mem_monthRangeList {a b n : Nat} (h1 : a ≤ n) (h2 : n ≤ b) :
    monthKeyStr (ofMonthIdx n) ∈ monthRangeList a b := by
  unfold monthRangeList
  refine List.mem_map.mpr ⟨n - a, List.mem_range.mpr (by omega), ?_⟩
  have : a + (n - a) = n := by omega
  rw [this]

/-- Closed form of `get_all_months` when the start date is the first instant
of its calendar month (which is what `datetime.strptime(key, '%Y-%m')`
produces): the loop emits exactly the month keys from the start month to the
end month, both inclusive. -/
theorem gam_eq_monthRangeList (s e : PyDateTime) (hd : s.day = 1) (ht : s.tod = 0) :
    get_all_months s e = monthRangeList (monthIdx s) (monthIdx e) := by
  suffices H : ∀ n (s : PyDateTime), s.day = 1 → s.tod = 0 →
      monthIdx e + 1 - monthIdx s ≤ n →
      get_all_months s e = monthRangeList (monthIdx s) (monthIdx e) by
    exact H _ s hd ht le_rfl
  intro n
  induction n with
  | zero =>
    intro s hd ht hn
    have hnle : ¬ dateLe s e := fun h => by
      have := dateLe_monthIdx h; omega
    rw [get_all_months_eq_step, if_neg hnle]
    unfold monthRangeList
    have hz : monthIdx e + 1 - monthIdx s = 0 := by omega
    rw [hz]
    rfl
  | succ n ih =>
    intro s hd ht hn
    by_cases hle : monthIdx s ≤ monthIdx e
    · have hdle : dateLe s e := monthIdx_le_dateLe hd ht hle
      rw [get_all_months_eq_step, if_pos hdle,
        ih (addMonth s) (addMonth_day s hd) (by rw [addMonth_tod]; exact ht)
          (by rw [monthIdx_addMonth]; omega),
        monthIdx_addMonth, monthRangeList_cons hle, monthKeyStr_ofMonthIdx]
    · have hnle : ¬ dateLe s e := fun h => by
        have := dateLe_monthIdx h; omega
      rw [get_all_months_eq_step, if_neg hnle]
      unfold monthRangeList
      have hz : monthIdx e + 1 - monthIdx s = 0 := by omega
      rw [hz]
      rfl

/-- Generating from any month to the same month yields exactly that single
month key (this holds for every date, whatever its day of month). -/
theorem get_all_months_self (d : PyDateTime) :
    get_all_months d d = [monthKeyStr d] := by
  rw [get_all_months_eq_step, if_pos (dateLe_refl d), get_all_months_eq_step,
    if_neg]
  intro h
  have := dateLe_monthIdx h
  rw [monthIdx_addMonth] at this
  omega

/-- Embedding of `calculate_cost` (src/main.py lines 80-82), over exact
rationals: `(input_tokens * COST_INPUT_TOKEN + output_tokens * COST_OUTPUT_TOKEN) / 1_000_000`. -/
def calculate_cost (input_tokens output_tokens : Nat) : ℚ :=
  ((input_tokens : ℚ) * COST_INPUT_TOKEN + (output_tokens : ℚ) * COST_OUTPUT_TOKEN) / 1000000

theorem calculate_cost_nonneg (i o : Nat) : 0 ≤ calculate_cost i o := by
  unfold calculate_cost COST_INPUT_TOKEN COST_OUTPUT_TOKEN
  positivity

/-- The list comprehension `[sum(data[:i+1]) for i in range(len(data))]`
(running cumulative sums). -/
def cumSums {M : Type} [AddCommMonoid M] (l : List M) : List M :=
  (List.range l.length).map (fun i => (l.take (i + 1)).sum)

/-- The keys of `set(monthly_input_tokens.keys()) | set(monthly_output_tokens.keys())`
(as a list with possible duplicates; `min`/`max` below are insensitive to
duplication and order). -/
def allKeys (inT outT : List (String × Nat)) : List String :=
  inT.map Prod.fst ++ outT.map Prod.fst

/-- The lookup `mapping.get(month, 0)`. -/
def lookupD (l : List (String × Nat)) (k : String) : Nat := (l.lookup k).getD 0

/-- Python `min(a, b)` on dates (returns the first argument on ties). -/
def dmin (a b : PyDateTime) : PyDateTime := if dateLe a b then a else b

/-- Python `max(a, b)` on dates (returns the first argument on ties). -/
def dmax (a b : PyDateTime) : PyDateTime := if dateLe b a then a else b

theorem foldl_dmin_mem (d : PyDateTime) (l : List PyDateTime) :
    l.foldl dmin d ∈ d :: l := by
  induction l generalizing d with
  | nil => exact List.mem_singleton.mpr rfl
  | cons a l ih =>
    have h := ih (dmin d a)
    have hda : dmin d a = d ∨ dmin d a = a := by
      unfold dmin; split
      · exact Or.inl rfl
      · exact Or.inr rfl
    rw [List.foldl_cons]
    rcases List.mem_cons.mp h with h1 | h1
    · rcases hda with h2 | h2 <;> rw [h1, h2] <;> simp
    · simp [List.mem_cons.mpr (Or.inr h1)]

theorem foldl_dmin_le (d : PyDateTime) (l : List PyDateTime) :
    ∀ x ∈ d :: l, dateLe (l.foldl dmin d) x := by
  induction l generalizing d with
  | nil =>
    intro x hx
    rw [List.mem_singleton.mp hx]
    exact dateLe_refl _
  | cons a l ih =>
    intro x hx
    have hmin_d : dateLe (dmin d a) d := by
      unfold dmin; split
      · exact dateLe_refl _
      · rcases dateLe_total d a with h | h
        · exact absurd h (by assumption)
        · exact h
    have hmin_a : dateLe (dmin d a) a := by
      unfold dmin; split
      · assumption
      · exact dateLe_refl _
    rw [List.foldl_cons]
    rcases List.mem_cons.mp hx with h1 | h1
    · rw [h1]
      exact dateLe_trans (ih (dmin d a) _ (List.mem_cons_self _ _)) hmin_d
    · rcases List.mem_cons.mp h1 with h2 | h2
      · rw [h2]
        exact dateLe_trans (ih (dmin d a) _ (List.mem_cons_self _ _)) hmin_a
      · exact ih (dmin d a) x (List.mem_cons_of_mem _ h2)

theorem foldl_dmax_mem (d : PyDateTime) (l : List PyDateTime) :
    l.foldl dmax d ∈ d :: l := by
  induction l generalizing d with
  | nil => exact List.mem_singleton.mpr rfl
  | cons a l ih =>
    have h := ih (dmax d a)
    have hda : dmax d a = d ∨ dmax d a = a := by
      unfold dmax; split
      · exact Or.inl rfl
      · exact Or.inr rfl
    rw [List.foldl_cons]
    rcases List.mem_cons.mp h with h1 | h1
    · rcases hda with h2 | h2 <;> rw [h1, h2] <;> simp
    · simp [List.mem_cons.mpr (Or.inr h1)]

theorem foldl_dmax_ge (d : PyDateTime) (l : List PyDateTime) :
    ∀ x ∈ d :: l, dateLe x (l.foldl dmax d) := by
  induction l generalizing d with
  | nil =>
    intro x hx
    rw [List.mem_singleton.mp hx]
    exact dateLe_refl _
  | cons a l ih =>
    intro x hx
    have hmax_d : dateLe d (dmax d a) := by
      unfold dmax; split
      · exact dateLe_refl _
      · rcases dateLe_total d a with h | h
        · exact h
        · exact absurd h (by assumption)
    have hmax_a : dateLe a (dmax d a) := by
      unfold dmax; split
      · assumption
      · exact dateLe_refl _
    rw [List.foldl_cons]
    rcases List.mem_cons.mp hx with h1 | h1
    · rw [h1]
      exact dateLe_trans hmax_d (ih (dmax d a) _ (List.mem_cons_self _ _))
    · rcases List.mem_cons.mp h1 with h2 | h2
      · rw [h2]
        exact dateLe_trans hmax_a (ih (dmax d a) _ (List.mem_cons_self _ _))
      · exact ih (dmax d a) x (List.mem_cons_of_mem _ h2)

theorem mapM_some_of_forall {α β : Type} (f : α → Option β) (l : List α)
    (h : ∀ a ∈ l, (f a).isSome) : ∃ r, l.mapM f = some r := by
  induction l with
  | nil => exact ⟨[], rfl⟩
  | cons a l ih =>
    obtain ⟨b, hb⟩ := Option.isSome_iff_exists.mp (h a (List.mem_cons_self _ _))
    obtain ⟨r, hr⟩ := ih (fun x hx => h x (List.mem_cons_of_mem _ hx))
    exact ⟨b :: r, by rw [List.mapM_cons, hb, hr]; rfl⟩

theorem mapM_forward {α β : Type} {f : α → Option β} {l : List α} {r : List β}
    (h : l.mapM f = some r) : ∀ a ∈ l, ∃ b ∈ r, f a = some b := by
  induction l generalizing r with
  | nil => intro a ha; cases ha
  | cons x l ih =>
    rw [List.mapM_cons] at h
    cases hx : f x with
    | none => rw [hx] at h; cases h
    | some b =>
      rw [hx] at h
      cases hl : l.mapM f with
      | none => rw [hl] at h; cases h
      | some r' =>
        rw [hl] at h
        cases h
        intro a ha
        rcases List.mem_cons.mp ha with h1 | h1
        · exact ⟨b, List.mem_cons_self _ _, h1 ▸ hx⟩
        · obtain ⟨b', hb', hfb'⟩ := ih hl a h1
          exact ⟨b', List.mem_cons_of_mem _ hb', hfb'⟩

theorem mapM_backward {α β : Type} {f : α → Option β} {l : List α} {r : List β}
    (h : l.mapM f = some r) : ∀ b ∈ r, ∃ a ∈ l, f a = some b := by
  induction l generalizing r with
  | nil =>
    intro b hb
    cases h
    cases hb
  | cons x l ih =>
    rw [List.mapM_cons] at h
    cases hx : f x with
    | none => rw [hx] at h; cases h
    | some b0 =>
      rw [hx] at h
      cases hl : l.mapM f with
      | none => rw [hl] at h; cases h
      | some r' =>
        rw [hl] at h
        cases h
        intro b hb
        rcases List.mem_cons.mp hb with h1 | h1
        · exact ⟨x, List.mem_cons_self _ _, h1 ▸ hx⟩
        · obtain ⟨a, ha, hfa⟩ := ih hl b h1
          exact ⟨a, List.mem_cons_of_mem _ ha, hfa⟩

/-- The data computed (and printed) by `print_token_usage`; `plot_token_usage`
computes the identical series (src/main.py lines 88-105 and 154-171). -/
structure ReportData where
  all_months : List String
  input_data : List Nat
  output_data : List Nat
  cumulative_input : List Nat
  cumulative_output : List Nat
  monthly_costs : List ℚ
  cumulative_costs : List ℚ
  deriving DecidableEq, Repr

/-- Embedding of the computational core of `print_token_usage` (src/main.py
lines 151-171): determine the date range (min over the union of keys — a
`ValueError` when the union is empty or a key fails to parse), extend the end
to the later of `datetime.today()` and the latest data month, expand the month
range, and build the monthly and cumulative series. -/
def print_token_usage (today : PyDateTime) (inT outT : List (String × Nat)) :
    Except PyErr ReportData :=
  match (allKeys inT outT).mapM strptimeYm with
  | none => .error .valueError
  | some [] => .error .valueError
  | some (d0 :: ds) =>
    let start_date := ds.foldl dmin d0
    let end_date := dmax today (ds.foldl dmax d0)
    let all_months := get_all_months start_date end_date
    let input_data := all_months.map (lookupD inT)
    let output_data := all_months.map (lookupD outT)
    let monthly_costs := (List.range all_months.length).map
      (fun i => calculate_cost (input_data.getD i 0) (output_data.getD i 0))
    .ok { all_months := all_months, input_data := input_data,
          output_data := output_data,
          cumulative_input := cumSums input_data,
          cumulative_output := cumSums output_data,
          monthly_costs := monthly_costs,
          cumulative_costs := cumSums monthly_costs }

/-- Simple total token counter standing in for the BPE encoder of the default
model when the embedding is evaluated on closed inputs. -/
def demoEncoder : String → Nat := fun s => s.length

/-- A concrete tokenizer environment: the default model id is registered,
every other id makes `encoding_for_model` raise (as `tiktoken` does for an
unknown model name). -/
def demoTikToken : TikTokenEnv :=
  ⟨fun m => if m = MODEL then some demoEncoder else none⟩

/-- A concrete stand-in for `datetime.fromtimestamp(t).strftime('%Y-%m')`
(whose value depends on the local timezone); the extraction theorems quantify
over the derivation function, and closed evaluations use this fixed one. -/
def demoMonthKey : Int → String := fun _ => "2023-11"

/-- C4: for all non-negative integers i and o, `calculate_cost i o` equals
(i × COST_INPUT_TOKEN + o × COST_OUTPUT_TOKEN) / 1,000,000 exactly, with the
default rates 5 and 15 dollars per million tokens; the function is total
(never fails), free of side effects, exact (multiplying back by 1,000,000
recovers i*5 + o*15 with no rounding), and non-negative. -/
theorem c4_calculate_cost (i o : Nat) :
    calculate_cost i o
        = ((i : ℚ) * COST_INPUT_TOKEN + (o : ℚ) * COST_OUTPUT_TOKEN) / 1000000
      ∧ COST_INPUT_TOKEN = 5 ∧ COST_OUTPUT_TOKEN = 15
      ∧ calculate_cost i o * 1000000 = (i : ℚ) * 5 + (o : ℚ) * 15
      ∧ 0 ≤ calculate_cost i o := by
  refine ⟨rfl, rfl, rfl, ?_, calculate_cost_nonneg i o⟩
  unfold calculate_cost COST_INPUT_TOKEN COST_OUTPUT_TOKEN
  field_simp

/-- C5: for every image unit carrying integer width and height fields (and any
model id and tokenizer environment), `count_tokens` returns exactly
BASE_IMAGE_TOKENS + TILE_TOKENS × floor((width × height) / (512×512)) tokens,
with constants 85 and 170; in particular 512×512 yields 255 tokens, 1024×1024
yields 765, and 100×100 yields 85. -/
theorem c5_image_formula (env : TikTokenEnv) (model : String)
    (fields : List (String × Nat)) (w h : Nat)
    (hw : fields.lookup "width" = some w) (hh : fields.lookup "height" = some h) :
    count_tokens env (.dict fields) model
        = .ok ⟨COST_BASE_IMAGE + COST_IMAGE_TILE * (w * h / (512 * 512)), false⟩
      ∧ COST_BASE_IMAGE = 85 ∧ COST_IMAGE_TILE = 170
      ∧ count_tokens env (.dict [("width", 512), ("height", 512)]) model = .ok ⟨255, false⟩
      ∧ count_tokens env (.dict [("width", 1024), ("height", 1024)]) model = .ok ⟨765, false⟩
      ∧ count_tokens env (.dict [("width", 100), ("height", 100)]) model = .ok ⟨85, false⟩ := by
  refine ⟨?_, rfl, rfl, rfl, rfl, rfl⟩
  simp only [count_tokens, hw, hh]

/-- Witness for C5 at a concrete 512×512 image descriptor. -/
theorem c5_image_formula_witness :
    count_tokens demoTikToken (.dict [("width", 512), ("height", 512)]) MODEL
      = .ok ⟨255, false⟩ :=
  (c5_image_formula demoTikToken MODEL [("width", 512), ("height", 512)] 512 512
    rfl rfl).2.2.2.1

/-- C2 counterexample: when tokenization fails on a plain string unit (here:
an unregistered model id), `count_tokens` does not return 0 — the handler
evaluates `text.keys()` on a `str`, which raises `AttributeError`, so the call
propagates an exception. -/
theorem c2_counterexample :
    count_tokens demoTikToken (.str "hello") "no-such-model"
      = .error .attributeError := rfl

/-- C2 amended: when the model-specific tokenization fails and the unit is a
dict that does not carry both width and height fields, `count_tokens` reports
the failure and returns 0 without raising; (only) when the failing unit is a
plain string does the handler itself raise `AttributeError`. -/
theorem c2_dict_failure_returns_zero (env : TikTokenEnv) (model : String)
    (fields : List (String × Nat))
    (hnf : ¬((fields.lookup "width").isSome ∧ (fields.lookup "height").isSome)) :
    count_tokens env (.dict fields) model = .ok ⟨0, true⟩ := by
  simp only [count_tokens]
  cases hw : fields.lookup "width" with
  | none => cases hh : fields.lookup "height" <;> rfl
  | some w =>
    cases hh : fields.lookup "height" with
    | none => rfl
    | some h =>
      exact absurd ⟨by rw [hw]; rfl, by rw [hh]; rfl⟩ hnf

/-- Witness for the amended C2 at a concrete width/height-free dict unit. -/
theorem c2_dict_failure_witness :
    count_tokens demoTikToken (.dict [("content_type", 7)]) "no-such-model"
      = .ok ⟨0, true⟩ :=
  c2_dict_failure_returns_zero demoTikToken "no-such-model" [("content_type", 7)]
    (by decide)

/-- C1 counterexample: a node whose `content.parts` is the empty sequence and
whose `create_time` is set does abort the extraction pass — indexing the empty
list raises `IndexError`, which `except AttributeError` does not catch. -/
theorem c1_counterexample :
    extract_token_usage demoTikToken demoMonthKey
        [⟨[("node0", .msg ⟨some [], "user", some 1700000000⟩)]⟩]
      = .error .indexError := rfl

/-- C1 amended: a node whose `content.parts` is empty is treated as no data
and silently skipped only when its `create_time` is falsy (absent, null or 0);
when `create_time` is truthy, evaluating `message_content[0]` raises an
uncaught `IndexError` and the extraction pass aborts on that node. -/
theorem c1_empty_parts (env : TikTokenEnv) (fm : Int → String)
    (role : String) (ct : Option Int) (st : ExtractState) :
    (ctimeTruthy ct = false →
        processNode env fm (.msg ⟨some [], role, ct⟩) st = (st, none)) ∧
    (ctimeTruthy ct = true →
        processNode env fm (.msg ⟨some [], role, ct⟩) st = (st, some .indexError)) := by
  constructor <;> intro h <;> simp [processNode, nodeBody, h]

/-- Witness for the amended C1: a dated empty-parts node raises IndexError. -/
theorem c1_empty_parts_witness :
    processNode demoTikToken demoMonthKey
        (.msg ⟨some [], "user", some 1700000000⟩) ⟨[], [], []⟩
      = (⟨[], [], []⟩, some .indexError) :=
  (c1_empty_parts demoTikToken demoMonthKey "user" (some 1700000000)
    ⟨[], [], []⟩).2 rfl

/-- C10: a message node whose `create_time` is exactly 0 (the Unix epoch) is
skipped by the extractor and contributes to neither mapping, exactly as if its
timestamp were absent — the gate tests truthiness, not presence. -/
theorem c10_epoch_zero_skipped (env : TikTokenEnv) (fm : Int → String)
    (parts : Option (List Part)) (role : String) (st : ExtractState) :
    processNode env fm (.msg ⟨parts, role, some 0⟩) st
        = processNode env fm (.msg ⟨parts, role, none⟩) st
      ∧ processNode env fm (.msg ⟨parts, role, some 0⟩) st = (st, none) := by
  constructor <;> rfl

theorem count_tokens_dict_ok (env : TikTokenEnv) (model : String)
    (fields : List (String × Nat)) :
    ∃ r, count_tokens env (.dict fields) model = .ok r := by
  simp only [count_tokens]
  cases fields.lookup "width" <;> cases fields.lookup "height" <;> exact ⟨_, rfl⟩

theorem partsLoop_other_role (env : TikTokenEnv) (enc : String → Nat)
    (hE : env.encoding_for_model MODEL = some enc)
    (mk role : String) (hu : role ≠ "user") (ha : role ≠ "assistant") :
    ∀ (l : List Part) (st : ExtractState),
      partsLoop env mk role l st
        = ({ st with tokenized := st.tokenized ++ l }, none) := by
  intro l
  induction l with
  | nil => intro st; simp [partsLoop]
  | cons p ps ih =>
    intro st
    have hct : ∃ r, count_tokens env p MODEL = .ok r := by
      cases p with
      | str s => exact ⟨⟨enc s, false⟩, by simp only [count_tokens, hE]⟩
      | dict fields => exact count_tokens_dict_ok env MODEL fields
    obtain ⟨r, hr⟩ := hct
    simp only [partsLoop, hr, if_neg hu, if_neg ha, ih]
    simp

/-- C9: a message node with a usable creation time and nonempty content whose
author role is neither "user" nor "assistant" leaves both monthly mappings
unchanged, yet the tokenizer is still invoked on each of the node's content
parts (the ghost `tokenized` log is extended by exactly those parts). The
hypothesis `hE` models the real run, where the default model "gpt-4o" is
registered with `tiktoken`. -/
theorem c9_other_role_frame (env : TikTokenEnv) (enc : String → Nat)
    (fm : Int → String) (role : String) (t : Int) (p : Part) (ps : List Part)
    (st : ExtractState)
    (hE : env.encoding_for_model MODEL = some enc)
    (ht : t ≠ 0) (hp : partTruthy p = true)
    (hu : role ≠ "user") (ha : role ≠ "assistant") :
    processNode env fm (.msg ⟨some (p :: ps), role, some t⟩) st
      = ({ st with tokenized := st.tokenized ++ (p :: ps) }, none) := by
  have hct : ctimeTruthy (some t) = true := by simp [ctimeTruthy, ht]
  simp [processNode, nodeBody, hct, hp,
    partsLoop_other_role env enc hE _ role hu ha]

/-- Witness for C9 at a concrete "system" node. -/
theorem c9_other_role_witness :
    processNode demoTikToken demoMonthKey
        (.msg ⟨some [Part.str "hi"], "system", some 5⟩) ⟨[], [], []⟩
      = (⟨[], [], [Part.str "hi"]⟩, none) := by
  have h := c9_other_role_frame demoTikToken demoEncoder demoMonthKey "system" 5
    (Part.str "hi") [] ⟨[], [], []⟩ rfl (by decide) rfl (by decide) (by decide)
  simpa using h

/-- The date 2023-11-01 00:00. -/
def nov2023 : PyDateTime := ⟨2023, 11, 1, 0, by decide, by decide, by decide, by decide⟩

/-- The date 2024-02-01 00:00. -/
def feb2024 : PyDateTime := ⟨2024, 2, 1, 0, by decide, by decide, by decide, by decide⟩

/-- The date 2024-01-31 00:00. -/
def jan31_2024 : PyDateTime := ⟨2024, 1, 31, 0, by decide, by decide, by decide, by decide⟩

/-- The date 2024-01-15 00:00, used as a concrete "today". -/
def demoToday : PyDateTime := ⟨2024, 1, 15, 0, by decide, by decide, by decide, by decide⟩

/-- C3 counterexample: the dates 2024-01-31 ≤ 2024-02-01 violate the claim —
the generated sequence is ["2024-01"] alone, not both months inclusive,
because `relativedelta(months=1)` lands on 2024-02-29, which exceeds the end
date. The claim's "regardless of the day-of-month of either date" fails. -/
theorem c3_counterexample :
    dateLe jan31_2024 feb2024
      ∧ get_all_months jan31_2024 feb2024 = ["2024-01"]
      ∧ "2024-02" ∉ get_all_months jan31_2024 feb2024 :=
  ⟨by decide, by decide, by decide⟩

/-- C3 amended: when `start_date` is the first instant of its calendar month
(which is what the pipeline supplies, via `strptime(key, '%Y-%m')`), and
`start_date ≤ end_date`, `get_all_months` returns the ordered gapless
sequence of month keys from start month to end month, both inclusive,
stepping by one calendar month with year rollover. Moreover, generating from
any date to the same date returns exactly that one month key, and generating
from 2023-11 to 2024-02 returns exactly the four expected keys. -/
theorem c3_month_range (s e : PyDateTime) (hd : s.day = 1) (ht : s.tod = 0)
    (hle : dateLe s e) :
    get_all_months s e = monthRangeList (monthIdx s) (monthIdx e)
      ∧ monthIdx s ≤ monthIdx e
      ∧ (get_all_months s e).length = monthIdx e + 1 - monthIdx s
      ∧ (get_all_months s e).head? = some (monthKeyStr s)
      ∧ (∀ n, monthIdx s ≤ n → n ≤ monthIdx e →
          monthKeyStr (ofMonthIdx n) ∈ get_all_months s e)
      ∧ (∀ d : PyDateTime, get_all_months d d = [monthKeyStr d])
      ∧ get_all_months nov2023 feb2024 = ["2023-11", "2023-12", "2024-01", "2024-02"] := by
  have hcf := gam_eq_monthRangeList s e hd ht
  have hidx : monthIdx s ≤ monthIdx e := dateLe_monthIdx hle
  refine ⟨hcf, hidx, ?_, ?_, ?_, get_all_months_self, by decide⟩
  · rw [hcf]; unfold monthRangeList; rw [List.length_map, List.length_range]
  · rw [hcf, monthRangeList_cons hidx]
    simp [monthKeyStr_ofMonthIdx]
  · intro n h1 h2
    rw [hcf]
    exact mem_monthRangeList h1 h2

/-- Witness for the amended C3 at 2023-11-01 .. 2024-02-01. -/
theorem c3_month_range_witness :
    get_all_months nov2023 feb2024
        = monthRangeList (monthIdx nov2023) (monthIdx feb2024)
      ∧ get_all_months nov2023 feb2024 = ["2023-11", "2023-12", "2024-01", "2024-02"] := by
  have h := c3_month_range nov2023 feb2024 rfl rfl (by decide)
  exact ⟨h.1, h.2.2.2.2.2.2⟩

/-- C8: when both monthly mappings are empty, the reporting step fails with
the ValueError raised by taking the minimum over an empty set of dates; the
code does not guard this case. -/
theorem c8_empty_report (today : PyDateTime) :
    print_token_usage today [] [] = .error .valueError := rfl

theorem cumSums_length {M : Type} [AddCommMonoid M] (l : List M) :
    (cumSums l).length = l.length := by
  unfold cumSums; rw [List.length_map, List.length_range]

theorem cumSums_getD {M : Type} [AddCommMonoid M] (l : List M) (i : Nat)
    (hi : i < l.length) :
    (cumSums l).getD i 0 = (l.take (i + 1)).sum := by
  unfold cumSums
  rw [List.getD_eq_getElem?_getD, List.getElem?_map, List.getElem?_range hi]
  rfl

theorem take_sum_mono {M : Type} [OrderedAddCommMonoid M] (l : List M)
    (hl : ∀ x ∈ l, 0 ≤ x) {a b : Nat} (hab : a ≤ b) :
    (l.take a).sum ≤ (l.take b).sum := by
  have hsplit : l.take b = l.take a ++ (l.drop a).take (b - a) := by
    have hb : a + (b - a) = b := by omega
    conv_lhs => rw [← hb, List.take_add]
  rw [hsplit, List.sum_append]
  have h0 : 0 ≤ ((l.drop a).take (b - a)).sum :=
    List.sum_nonneg (fun x hx =>
      hl x (List.drop_subset _ _ (List.take_subset _ _ hx)))
  exact le_add_of_nonneg_right h0

/-- Inversion of a successful run of the reporter: names the series it
computed. -/
theorem print_token_usage_ok {today : PyDateTime} {inT outT : List (String × Nat)}
    {rd : ReportData} (h : print_token_usage today inT outT = .ok rd) :
    ∃ d0 ds, (allKeys inT outT).mapM strptimeYm = some (d0 :: ds)
      ∧ rd.all_months = get_all_months (ds.foldl dmin d0) (dmax today (ds.foldl dmax d0))
      ∧ rd.input_data = rd.all_months.map (lookupD inT)
      ∧ rd.output_data = rd.all_months.map (lookupD outT)
      ∧ rd.cumulative_input = cumSums rd.input_data
      ∧ rd.cumulative_output = cumSums rd.output_data
      ∧ rd.monthly_costs = (List.range rd.all_months.length).map
          (fun i => calculate_cost (rd.input_data.getD i 0) (rd.output_data.getD i 0))
      ∧ rd.cumulative_costs = cumSums rd.monthly_costs := by
  unfold print_token_usage at h
  split at h
  · cases h
  · cases h
  · rename_i d0 ds heq
    injection h with h
    subst h
    exact ⟨d0, ds, heq, rfl, rfl, rfl, rfl, rfl, rfl, rfl⟩

/-- C7: each of the cumulative series computed by the reporter (cumulative
input tokens, cumulative output tokens, cumulative cost) is monotonically
non-decreasing, and each cumulative entry equals the sum of the monthly
values up to and including that month. -/
theorem c7_cumulative (today : PyDateTime) (inT outT : List (String × Nat))
    (rd : ReportData) (h : print_token_usage today inT outT = .ok rd) :
    (∀ i j, i ≤ j → j < rd.cumulative_input.length →
        rd.cumulative_input.getD i 0 ≤ rd.cumulative_input.getD j 0)
      ∧ (∀ i j, i ≤ j → j < rd.cumulative_output.length →
        rd.cumulative_output.getD i 0 ≤ rd.cumulative_output.getD j 0)
      ∧ (∀ i j, i ≤ j → j < rd.cumulative_costs.length →
        rd.cumulative_costs.getD i 0 ≤ rd.cumulative_costs.getD j 0)
      ∧ (∀ i, i < rd.input_data.length →
        rd.cumulative_input.getD i 0 = (rd.input_data.take (i + 1)).sum)
      ∧ (∀ i, i < rd.output_data.length →
        rd.cumulative_output.getD i 0 = (rd.output_data.take (i + 1)).sum)
      ∧ (∀ i, i < rd.monthly_costs.length →
        rd.cumulative_costs.getD i 0 = (rd.monthly_costs.take (i + 1)).sum) := by
  obtain ⟨d0, ds, hm, ham, hin, hout, hci, hco, hmc, hcc⟩ := print_token_usage_ok h
  have hcost_nonneg : ∀ x ∈ rd.monthly_costs, (0 : ℚ) ≤ x := by
    rw [hmc]
    intro x hx
    obtain ⟨i, _, rfl⟩ := List.mem_map.mp hx
    exact calculate_cost_nonneg _ _
  refine ⟨?_, ?_, ?_, ?_, ?_, ?_⟩
  · intro i j hij hj
    rw [hci] at hj ⊢
    rw [cumSums_length] at hj
    rw [cumSums_getD _ _ (by omega), cumSums_getD _ _ hj]
    exact take_sum_mono _ (fun x _ => Nat.zero_le x) (by omega)
  · intro i j hij hj
    rw [hco] at hj ⊢
    rw [cumSums_length] at hj
    rw [cumSums_getD _ _ (by omega), cumSums_getD _ _ hj]
    exact take_sum_mono _ (fun x _ => Nat.zero_le x) (by omega)
  · intro i j hij hj
    rw [hcc] at hj ⊢
    rw [cumSums_length] at hj
    rw [cumSums_getD _ _ (by omega), cumSums_getD _ _ hj]
    exact take_sum_mono _ hcost_nonneg (by omega)
  · intro i hi
    rw [hci, cumSums_getD _ _ hi]
  · intro i hi
    rw [hco, cumSums_getD _ _ hi]
  · intro i hi
    rw [hcc, cumSums_getD _ _ hi]

/-- The date 2024-01-01 00:00. -/
def jan2024 : PyDateTime := ⟨2024, 1, 1, 0, by decide, by decide, by decide, by decide⟩

/-- Concrete evaluation of the reporter on a one-month mapping, used to
instantiate theorems that hypothesize a successful run. -/
theorem print_token_usage_demo :
    print_token_usage demoToday [("2024-01", 10)] []
      = .ok ⟨["2024-01"], [10], [0], [10], [0],
          [calculate_cost 10 0], [calculate_cost 10 0 + 0]⟩ := by
  have hmapM : (allKeys [("2024-01", 10)] []).mapM strptimeYm = some [jan2024] := rfl
  have hgam : get_all_months jan2024 demoToday = ["2024-01"] := by decide
  unfold print_token_usage
  rw [hmapM]
  dsimp only
  rw [show List.foldl dmin jan2024 [] = jan2024 from rfl,
      show List.foldl dmax jan2024 [] = jan2024 from rfl,
      show dmax demoToday jan2024 = demoToday from by unfold dmax; rw [if_pos (by decide)],
      hgam]
  simp [lookupD, cumSums, List.range_succ]

/-- Witness for C7 at a concrete one-month report. -/
theorem c7_cumulative_witness :
    ∃ rd, print_token_usage demoToday [("2024-01", 10)] [] = .ok rd
      ∧ ∀ i j, i ≤ j → j < rd.cumulative_input.length →
          rd.cumulative_input.getD i 0 ≤ rd.cumulative_input.getD j 0 :=
  ⟨_, print_token_usage_demo,
    (c7_cumulative demoToday [("2024-01", 10)] [] _ print_token_usage_demo).1⟩

theorem strptimeYm_day_tod {k : String} {d : PyDateTime}
    (h : strptimeYm k = some d) : d.day = 1 ∧ d.tod = 0 := by
  unfold strptimeYm at h
  split at h
  · split at h
    · split at h
      · injection h with h
        rw [← h]
        exact ⟨rfl, rfl⟩
      · cases h
    · cases h
  · cases h

/-- C6: for every pair of monthly mappings holding at least one month key
(all keys being canonical `'%Y-%m'` renderings, as the extractor produces),
the reporter succeeds and its generated month sequence is the gapless ordered
range of month keys running from the month of the earliest key to the later
of today's month and the month of the latest key; in particular every key of
either mapping appears in the sequence. -/
theorem c6_month_sequence (today : PyDateTime) (inT outT : List (String × Nat))
    (hne : allKeys inT outT ≠ [])
    (hk : ∀ k ∈ allKeys inT outT, ∃ d, strptimeYm k = some d ∧ monthKeyStr d = k) :
    ∃ rd s e, print_token_usage today inT outT = .ok rd
      ∧ rd.all_months = monthRangeList (monthIdx s) (monthIdx e)
      ∧ (∀ k ∈ allKeys inT outT, k ∈ rd.all_months)
      ∧ (∃ k ∈ allKeys inT outT, strptimeYm k = some s)
      ∧ (∀ k ∈ allKeys inT outT, ∀ d, strptimeYm k = some d → dateLe s d)
      ∧ (∃ mx, (∃ k ∈ allKeys inT outT, strptimeYm k = some mx)
          ∧ (∀ k ∈ allKeys inT outT, ∀ d, strptimeYm k = some d → dateLe d mx)
          ∧ monthIdx e = max (monthIdx today) (monthIdx mx)) := by
  have hsome : ∀ a ∈ allKeys inT outT, (strptimeYm a).isSome := by
    intro a ha
    obtain ⟨d, hd, _⟩ := hk a ha
    rw [hd]; rfl
  obtain ⟨r, hr⟩ := mapM_some_of_forall strptimeYm (allKeys inT outT) hsome
  cases r with
  | nil =>
    exfalso
    cases hall : allKeys inT outT with
    | nil => exact hne hall
    | cons a l =>
      rw [hall] at hr
      obtain ⟨b, hb, _⟩ := mapM_forward hr a (List.mem_cons_self _ _)
      cases hb
  | cons d0 ds =>
    cases hout : print_token_usage today inT outT with
    | error err =>
      exfalso
      unfold print_token_usage at hout
      rw [hr] at hout
      dsimp only at hout
      cases hout
    | ok rd =>
      obtain ⟨d0', ds', hm', ham, _, _, _, _, _, _⟩ := print_token_usage_ok hout
      rw [hr] at hm'
      injection hm' with hm'
      injection hm' with h1 h2
      subst h1
      subst h2
      have hcanon : ∀ x ∈ d0 :: ds, x.day = 1 ∧ x.tod = 0 := by
        intro x hx
        obtain ⟨k, _, hkx⟩ := mapM_backward hr x hx
        exact strptimeYm_day_tod hkx
      have hs0mem : ds.foldl dmin d0 ∈ d0 :: ds := foldl_dmin_mem d0 ds
      have hmxmem : ds.foldl dmax d0 ∈ d0 :: ds := foldl_dmax_mem d0 ds
      have hs0canon := hcanon _ hs0mem
      have hmx_e0 : dateLe (ds.foldl dmax d0) (dmax today (ds.foldl dmax d0)) := by
        unfold dmax
        split
        · assumption
        · exact dateLe_refl _
      have hcf : get_all_months (ds.foldl dmin d0) (dmax today (ds.foldl dmax d0))
          = monthRangeList (monthIdx (ds.foldl dmin d0))
              (monthIdx (dmax today (ds.foldl dmax d0))) :=
        gam_eq_monthRangeList _ _ hs0canon.1 hs0canon.2
      refine ⟨rd, ds.foldl dmin d0, dmax today (ds.foldl dmax d0), rfl, ?_, ?_,
        mapM_backward hr _ hs0mem, ?_, ?_⟩
      · rw [ham]
        exact hcf
      · intro k hkk
        obtain ⟨dk, hdk, hkey⟩ := hk k hkk
        obtain ⟨b, hbmem, hkb⟩ := mapM_forward hr k hkk
        rw [hdk] at hkb
        injection hkb with hkb
        subst hkb
        have hi1 : monthIdx (ds.foldl dmin d0) ≤ monthIdx dk :=
          dateLe_monthIdx (foldl_dmin_le d0 ds dk hbmem)
        have hi2 : monthIdx dk ≤ monthIdx (dmax today (ds.foldl dmax d0)) :=
          le_trans (dateLe_monthIdx (foldl_dmax_ge d0 ds dk hbmem))
            (dateLe_monthIdx hmx_e0)
        have hmem := mem_monthRangeList hi1 hi2
        rw [monthKeyStr_ofMonthIdx] at hmem
        rw [ham, hcf, ← hkey]
        exact hmem
      · intro k hkk dk hdk
        obtain ⟨b, hbmem, hkb⟩ := mapM_forward hr k hkk
        rw [hdk] at hkb
        injection hkb with hkb
        subst hkb
        exact foldl_dmin_le d0 ds dk hbmem
      · refine ⟨ds.foldl dmax d0, mapM_backward hr _ hmxmem, ?_, ?_⟩
        · intro k hkk dk hdk
          obtain ⟨b, hbmem, hkb⟩ := mapM_forward hr k hkk
          rw [hdk] at hkb
          injection hkb with hkb
          subst hkb
          exact foldl_dmax_ge d0 ds dk hbmem
        · unfold dmax
          split
          · rename_i hle2
            have h2 := dateLe_monthIdx hle2
            exact (Nat.max_eq_left h2).symm
          · rename_i hnle
            have h2 : dateLe today (ds.foldl dmax d0) :=
              (dateLe_total (ds.foldl dmax d0) today).resolve_left hnle
            have h3 := dateLe_monthIdx h2
            exact (Nat.max_eq_right h3).symm

/-- Witness for C6 at a concrete pair of mappings. -/
theorem c6_month_sequence_witness :
    ∃ rd, print_token_usage demoToday [("2023-11", 2)] [("2024-01", 3)] = .ok rd
      ∧ "2023-11" ∈ rd.all_months ∧ "2024-01" ∈ rd.all_months := by
  have hk : ∀ k ∈ allKeys [("2023-11", 2)] [("2024-01", 3)],
      ∃ d, strptimeYm k = some d ∧ monthKeyStr d = k := by
    intro k hkk
    have hcases : k = "2023-11" ∨ k = "2024-01" := by
      simpa [allKeys] using hkk
    rcases hcases with rfl | rfl
    · exact ⟨nov2023, rfl, rfl⟩
    · exact ⟨jan2024, rfl, rfl⟩
  obtain ⟨rd, s, e, hok, _, hmem, _⟩ :=
    c6_month_sequence demoToday [("2023-11", 2)] [("2024-01", 3)] (by decide) hk
  exact ⟨rd, hok, hmem _ (by decide), hmem _ (by decide)⟩

end CostCalc
